import Mathlib

/-!
Verification development for the ziti PKI command-line slice.

The visible source consists of the create-CA command (`PKICreateCAOptions`)
and the fabric `list` renderers.  The PKI core (Store, Request Builder,
Signing Engine, Issuance Orchestrator) is referenced by the visible code but
its implementation is not part of the provided sources; those components are
modelled from the specification, with doc comments marking each such
definition.  The CLI command and the circuit-path rendering are embedded
directly from the source files.
-/

/-- Key-usage bits a certificate may carry (spec section 4.3 step 3). -/
inductive KeyUsage where
  | certSign
  | crlSign
  | digitalSignature
  | keyEncipherment
  deriving DecidableEq, Repr

/-- Extended-key-usage values (spec section 4.3 step 3). -/
inductive ExtKeyUsage where
  | serverAuth
  | clientAuth
  deriving DecidableEq, Repr

/-- Modelled from the spec: the parsed X.509 certificate carried by a Bundle
(subject, issuer, serial, validity window, basic constraints, key usage,
public key).  The implementation of the certificate type is not in the
visible sources. -/
structure Certificate where
  serial : Nat
  subject : String
  issuer : String
  notBefore : Nat
  notAfter : Nat
  isCA : Bool
  pathLenConstraint : Option Int
  keyUsage : List KeyUsage
  extKeyUsage : List ExtKeyUsage
  publicKey : Nat
  deriving DecidableEq, Repr

/-- Modelled from the spec: the public half of a generated private key.
Key material is abstracted to a natural number; the public half is a
function of the private half so that key/certificate matching is checkable. -/
def publicKeyOf (priv : Nat) : Nat :=
  2 * priv + 1

/-- Modelled from the spec: a Bundle is an in-memory certificate plus private
key plus parent-chain reference (root-first, excluding this certificate). -/
structure Bundle where
  certificate : Certificate
  privateKey : Nat
  chain : List Certificate
  deriving DecidableEq, Repr

/-- Modelled from the spec: the desired subject fields and CA flag of a
request template; `PKICreateCAOptions.Run` mutates `IsCA` on such a
template before signing. -/
structure Template where
  commonName : String
  organization : String
  isCA : Bool
  deriving DecidableEq, Repr

/-- Modelled from the spec: a signing Request.  The fields `name`,
`template`, `isClientCertificate` and `privateKeySize` appear in the visible
request literal of `PKICreateCAOptions.Run`; `validityDays` and `maxPathLen`
are the remaining request parameters described in spec section 3. -/
structure Request where
  name : String
  template : Template
  isClientCertificate : Bool
  privateKeySize : Nat
  validityDays : Nat
  maxPathLen : Int
  deriving DecidableEq, Repr

/-- Error taxonomy of spec section 7. -/
inductive PKIError where
  | invalidRequest
  | notFound
  | corruptData
  | keyMismatch
  | notACertificateAuthority
  | pathLengthExceeded
  | alreadyExists
  | writeFailure
  deriving DecidableEq, Repr

/-- Modelled from the spec: the supported private-key sizes
("must be a supported size (e.g., 2048/4096); rejected otherwise"). -/
def supportedKeySizes : List Nat :=
  [2048, 4096]

/-- Modelled from the spec: the Request Builder validation rules of spec
section 4.2 together with the request invariants of section 3: non-empty
common name, supported key size, validity of at least one day,
`maxPathLen >= -1`, and no contradictory `isCA && isClientCertificate`. -/
def validateRequest (req : Request) : Option PKIError :=
  if req.template.commonName = "" then some .invalidRequest
  else if ¬ req.privateKeySize ∈ supportedKeySizes then some .invalidRequest
  else if req.validityDays < 1 then some .invalidRequest
  else if req.maxPathLen < -1 then some .invalidRequest
  else if req.template.isCA ∧ req.isClientCertificate then some .invalidRequest
  else none

/-- Modelled from the spec: key-usage assignment of spec section 4.3 step 3. -/
def keyUsageFor (req : Request) : List KeyUsage :=
  if req.template.isCA then [.certSign, .crlSign]
  else if req.isClientCertificate then []
  else [.digitalSignature, .keyEncipherment]

/-- Modelled from the spec: extended-key-usage assignment of spec
section 4.3 step 3. -/
def extKeyUsageFor (req : Request) : List ExtKeyUsage :=
  if req.template.isCA then []
  else if req.isClientCertificate then [.clientAuth, .serverAuth]
  else [.serverAuth]

/-- Modelled from the spec: the certificate built by the Signing Engine for
a request, given the issuer name, fresh key, serial and current time
(spec section 4.3 steps 2 and 3). -/
def buildCertificate (req : Request) (issuerName : String)
    (freshKey serial now : Nat) : Certificate :=
  { serial := serial
    subject := req.template.commonName
    issuer := issuerName
    notBefore := now
    notAfter := now + req.validityDays
    isCA := req.template.isCA
    pathLenConstraint := if req.template.isCA then some req.maxPathLen else none
    keyUsage := keyUsageFor req
    extKeyUsage := extKeyUsageFor req
    publicKey := publicKeyOf freshKey }

/-- Modelled from the spec: the Signing Engine (spec section 4.3).  The
fresh private key, random serial and current time are passed explicitly.
Validation failures are reported first; with no signer the request must be
a CA request (self-signed, empty chain); with a signer the signer must be a
CA with enough remaining path-length budget, and the chain is the signer's
chain extended by the signer's certificate. -/
def signRequest (signer : Option Bundle) (req : Request)
    (freshKey serial now : Nat) : Except PKIError Bundle :=
  match validateRequest req with
  | some e => .error e
  | none =>
    match signer with
    | none =>
      if req.template.isCA then
        .ok { certificate := buildCertificate req req.template.commonName freshKey serial now
              privateKey := freshKey
              chain := [] }
      else
        .error .invalidRequest
    | some s =>
      if ¬ s.certificate.isCA then
        .error .notACertificateAuthority
      else if s.certificate.pathLenConstraint = some 0 ∧ req.template.isCA then
        .error .pathLengthExceeded
      else
        .ok { certificate := buildCertificate req s.certificate.subject freshKey serial now
              privateKey := freshKey
              chain := s.chain ++ [s.certificate] }

example :
    signRequest none
      { name := "root"
        template := { commonName := "CA", organization := "org", isCA := true }
        isClientCertificate := false
        privateKeySize := 4096
        validityDays := 3650
        maxPathLen := -1 } 5 7 100
      = .ok { certificate :=
                { serial := 7, subject := "CA", issuer := "CA", notBefore := 100
                  notAfter := 3750, isCA := true, pathLenConstraint := some (-1)
                  keyUsage := [.certSign, .crlSign], extKeyUsage := []
                  publicKey := 11 }
              privateKey := 5
              chain := [] } := by
  rfl

/-- Modelled from the spec: the on-disk triple held by the Store for one
logical name: private-key file, certificate file, and chain file
(spec section 3, "Store entry"). -/
structure StoredEntry where
  keyData : Nat
  certData : Certificate
  chainData : List Certificate
  deriving DecidableEq, Repr

/-- Modelled from the spec: the filesystem-backed Store, abstracted as an
association list from logical names to stored entries (most recent entry
first). -/
abbrev StoreState : Type :=
  List (String × StoredEntry)

/-- Modelled from the spec: look up the stored entry for a logical name. -/
def storeFind (st : StoreState) (name : String) : Option StoredEntry :=
  match st with
  | [] => none
  | (n, e) :: rest => if n = name then some e else storeFind rest name

/-- Modelled from the spec: `Exists(name)` is true when the files for
`name` are present (spec section 4.1). -/
def storeExists (st : StoreState) (name : String) : Bool :=
  (storeFind st name).isSome

/-- Modelled from the spec: `Save(bundle, name)` fails with `AlreadyExists`
unless an explicit overwrite flag is set; otherwise it records the bundle's
key, certificate and chain under `name` (spec section 4.1). -/
def storeSave (st : StoreState) (b : Bundle) (name : String)
    (overwrite : Bool) : Except PKIError StoreState :=
  if storeExists st name ∧ ¬ overwrite then
    .error .alreadyExists
  else
    .ok ((name, { keyData := b.privateKey
                  certData := b.certificate
                  chainData := b.chain }) :: st)

/-- Modelled from the spec: `Load(name)` fails with `NotFound` if absent and
with `KeyMismatch` if the stored public key does not match the certificate's
public key; otherwise it rebuilds the Bundle (spec section 4.1). -/
def storeLoad (st : StoreState) (name : String) : Except PKIError Bundle :=
  match storeFind st name with
  | none => .error .notFound
  | some e =>
    if publicKeyOf e.keyData = e.certData.publicKey then
      .ok { certificate := e.certData, privateKey := e.keyData, chain := e.chainData }
    else
      .error .keyMismatch

/-- Modelled from the spec: the persisting sign operation invoked by the
CLI (`o.Flags.PKI.Sign(signer, req)`): validate the request first (all
validation failures are reported before any key material is generated or
written), stop with `AlreadyExists` when the name is taken and no overwrite
was requested, then run the Signing Engine and persist the resulting bundle
(spec sections 4.3 and 4.4). -/
def zitiSign (st : StoreState) (signer : Option Bundle) (req : Request)
    (overwrite : Bool) (freshKey serial now : Nat) :
    Except PKIError StoreState :=
  match validateRequest req with
  | some e => .error e
  | none =>
    if storeExists st req.name ∧ ¬ overwrite then
      .error .alreadyExists
    else
      match signRequest signer req freshKey serial now with
      | .error e => .error e
      | .ok b => storeSave st b req.name overwrite

/-- Terminal outcomes of one Issuance Orchestrator invocation
(spec section 4.4). -/
inductive Outcome where
  | created
  | alreadyExists
  | validationFailed
  | ioFailed
  deriving DecidableEq, Repr

/-- Modelled from the spec: classify an issuance error into the
orchestrator's terminal outcome: `AlreadyExists` is reported as such, I/O
errors as `IOFailed`, and every other (validation) error as
`ValidationFailed`. -/
def outcomeOfError (e : PKIError) : Outcome :=
  match e with
  | .alreadyExists => .alreadyExists
  | .writeFailure => .ioFailed
  | _ => .validationFailed

/-- Modelled from the spec: the Issuance Orchestrator; on any failure the
store is left untouched, on success the saved store is returned
(spec section 4.4). -/
def issue (st : StoreState) (signer : Option Bundle) (req : Request)
    (overwrite : Bool) (freshKey serial now : Nat) : Outcome × StoreState :=
  match zitiSign st signer req overwrite freshKey serial now with
  | .error e => (outcomeOfError e, st)
  | .ok st2 => (.created, st2)

/-- Default value a CLI flag is registered with: cobra's `StringVarP` takes
a string default and `IntVarP` an integer default. -/
inductive FlagDefault where
  | str (s : String)
  | int (i : Int)
  deriving DecidableEq, Repr

/-- One flag registration: flag name, shorthand, default value and usage
string, as passed to `cmd.Flags().StringVarP` / `IntVarP`. -/
structure FlagSpec where
  flag : String
  shorthand : String
  dflt : FlagDefault
  usage : String
  deriving DecidableEq, Repr

/-- Flag registrations performed by `PKICreateCAOptions.addPKICreateCAFlags`
(src/unnamed/part_000 lines 64-71), in source order. -/
def addPKICreateCAFlags : List FlagSpec :=
  [ { flag := "pki-root", shorthand := "", dflt := .str ""
      usage := "Directory in which PKI resides" }
  , { flag := "ca-file", shorthand := "", dflt := .str ""
      usage := "Dir/File name (within PKI_ROOT) in which to store new CA" }
  , { flag := "ca-name", shorthand := "", dflt := .str "NetFoundry Inc. Certificate Authority"
      usage := "Name of CA" }
  , { flag := "expire-limit", shorthand := "", dflt := .int 3650
      usage := "Expiration limit in days" }
  , { flag := "max-path-len", shorthand := "", dflt := .int (-1)
      usage := "Intermediate maximum path length" }
  , { flag := "private-key-size", shorthand := "", dflt := .int 4096
      usage := "Size of the private key" } ]

/-- Default value registered for a flag name, if the flag was registered. -/
def flagDefault (flags : List FlagSpec) (name : String) : Option FlagDefault :=
  (flags.find? (fun f => f.flag = name)).map (fun f => f.dflt)

/-- Flag values held by `o.Flags` and read by `PKICreateCAOptions.Run`. -/
structure CreateCAFlags where
  pkiRoot : String
  caFile : String
  caName : String
  caExpire : Nat
  caMaxpath : Int
  caPrivateKeySize : Nat
  deriving DecidableEq, Repr

/-- Modelled from the spec: sanitization used when deriving an on-disk file
name from a logical name ("replacing disallowed characters",
spec section 4.2); whitespace is collapsed to underscores. -/
def sanitizeName (s : String) : String :=
  String.map (fun c => if c = ' ' then '_' else c) s

/-- Modelled from the spec: `ObtainFileName(cafile, commonName)`, a helper
outside the visible sources; the explicit `ca-file` flag value wins,
otherwise the file name is derived from the common name. -/
def obtainFileName (cafile commonName : String) : String :=
  if cafile = "" then sanitizeName commonName else cafile

/-- Modelled from the spec: `ObtainPKIRequestTemplate(commonName)`, a helper
outside the visible sources; it yields a template with the given common
name, a defaulted organization, and the CA flag not yet set. -/
def obtainPKIRequestTemplate (commonName : String) : Template :=
  { commonName := commonName, organization := "NetFoundry Inc.", isCA := false }

/-- Rendering of an issuance error, used in the `Cannot Sign: %v` message. -/
def errString (e : PKIError) : String :=
  match e with
  | .invalidRequest => "InvalidRequest"
  | .notFound => "NotFound"
  | .corruptData => "CorruptData"
  | .keyMismatch => "KeyMismatch"
  | .notACertificateAuthority => "NotACertificateAuthority"
  | .pathLengthExceeded => "PathLengthExceeded"
  | .alreadyExists => "AlreadyExists"
  | .writeFailure => "WriteFailure"

/-- Environment of one `PKICreateCAOptions.Run` invocation: the parsed
flags, the results of the `ObtainPKIRoot` / `ObtainCAFile` helpers (outside
the visible sources, hence abstracted as inputs), and the store contents
under the resolved PKI root. -/
structure RunEnv where
  flags : CreateCAFlags
  obtainPKIRoot : Except String String
  obtainCAFile : Except String String
  store : StoreState

/-- Request assembled by `PKICreateCAOptions.Run` (src/unnamed/part_000
lines 90-104): the file name derived from the ca-file value and the common
name, the template with `IsCA` forced to true, `IsClientCertificate` false,
and the private-key size from the flags; validity and path-length flow from
the `expire-limit` and `max-path-len` flags. -/
def caRequest (flags : CreateCAFlags) (cafile : String) : Request :=
  { name := obtainFileName cafile flags.caName
    template := { obtainPKIRequestTemplate flags.caName with isCA := true }
    isClientCertificate := false
    privateKeySize := flags.caPrivateKeySize
    validityDays := flags.caExpire
    maxPathLen := flags.caMaxpath }

/-- Control flow of `PKICreateCAOptions.Run` (src/unnamed/part_000 lines
74-114): fail when resolving the PKI root fails, fail when resolving the CA
file fails, then sign with a nil signer and fail with `Cannot Sign: ...`
when the sign call fails; otherwise succeed. -/
def runCreateCA (env : RunEnv) (freshKey serial now : Nat) :
    Except String Unit :=
  match env.obtainPKIRoot with
  | .error e => .error e
  | .ok _ =>
    match env.obtainCAFile with
    | .error e => .error e
    | .ok cafile =>
      match zitiSign env.store none (caRequest env.flags cafile) false
          freshKey serial now with
      | .error e => .error ("Cannot Sign: " ++ errString e)
      | .ok _ => .ok ()

/-- Modelled from the spec: `cmdhelper.CheckErr` turns a non-nil error into
a non-zero process exit status; a nil error exits with status zero. -/
def exitStatus (r : Except String Unit) : Nat :=
  match r with
  | .ok _ => 0
  | .error _ => 1

/-- Entity reference decoded by `getEntityRef`
(src/ziti/cmd/ziti/cmd/fabric/list.go lines 149-174): an id and a name. -/
structure EntityRef where
  id : String
  name : String
  deriving DecidableEq, Repr

/-- Inner loop of the Path-cell construction in `outputCircuits`
(list.go lines 132-138): for each node after the first, index the links
list at the running position and append a link and router segment.  An
out-of-range index (a Go panic) is modelled as `none`. -/
def circuitPathAux (acc : String) (rest links : List EntityRef)
    (idx : Nat) : Option String :=
  match rest with
  | [] => some acc
  | node :: rest2 =>
    match links[idx]? with
    | none => none
    | some l =>
      circuitPathAux (acc ++ " -> l/" ++ l.id ++ " -> r/" ++ node.name)
        rest2 links (idx + 1)

/-- Path cell computed by `outputCircuits` (list.go lines 117-139) from the
decoded `path.nodes` and `path.links` lists: empty for no nodes, otherwise
`r/` plus the first node name followed by the link/router segments. -/
def circuitPath (nodes links : List EntityRef) : Option String :=
  match nodes with
  | [] => some ""
  | n0 :: rest => circuitPathAux ("r/" ++ n0.name) rest links 0

/-- Path formula stated by the claim: segments pair `nodes[i+1]` with
`links[i]` in order. -/
def pathSegments : List EntityRef → List EntityRef → String
  | [], _ => ""
  | _ :: _, [] => ""
  | node :: ns, l :: ls =>
    " -> l/" ++ l.id ++ " -> r/" ++ node.name ++ pathSegments ns ls

/-- Path formula stated by the claim for the whole cell. -/
def circuitPathSpec (nodes links : List EntityRef) : String :=
  match nodes with
  | [] => ""
  | n0 :: rest => "r/" ++ n0.name ++ pathSegments rest links

/-- Embedding of `valOrDefault` (list.go lines 343-349): a typed nil-able
pointer is an `Option`; the Go zero value of the pointee type is the
`Inhabited` default. -/
def valOrDefault {V : Type} [Inhabited V] (val : Option V) : V :=
  match val with
  | some v => v
  | none => default

/-- Every request-validation failure is reported as `InvalidRequest`. -/
theorem validateRequest_eq_invalid (req : Request) (e : PKIError)
    (h : validateRequest req = some e) : e = .invalidRequest := by
  unfold validateRequest at h
  repeat' split at h
  all_goals simp_all

/-- Example signer bundle used by concrete witnesses: a CA certificate with
`pathLenConstraint = 0`. -/
def witSigner : Bundle :=
  { certificate :=
      { serial := 11, subject := "Intermediate", issuer := "Root"
        notBefore := 0, notAfter := 1000, isCA := true
        pathLenConstraint := some 0
        keyUsage := [.certSign, .crlSign], extKeyUsage := []
        publicKey := publicKeyOf 21 }
    privateKey := 21
    chain := [ { serial := 9, subject := "Root", issuer := "Root"
                 notBefore := 0, notAfter := 2000, isCA := true
                 pathLenConstraint := some 1
                 keyUsage := [.certSign, .crlSign], extKeyUsage := []
                 publicKey := publicKeyOf 17 } ] }

/-- Example CA request used by concrete witnesses. -/
def witCAReq : Request :=
  { name := "ca2"
    template := { commonName := "Sub CA", organization := "org", isCA := true }
    isClientCertificate := false
    privateKeySize := 4096
    validityDays := 365
    maxPathLen := 0 }

/-- Example leaf (server) request used by concrete witnesses. -/
def witLeafReq : Request :=
  { name := "server"
    template := { commonName := "server", organization := "org", isCA := false }
    isClientCertificate := false
    privateKeySize := 2048
    validityDays := 30
    maxPathLen := -1 }

/-- C1: with a signer whose certificate is a CA with `pathLenConstraint = 0`
and an otherwise valid request, the Signing Engine succeeds when the
request is for a leaf (non-CA) certificate and fails with
`PathLengthExceeded` when the request is for a CA certificate. -/
theorem signRequest_pathLenZero (s : Bundle) (req : Request)
    (k srl now : Nat)
    (hca : s.certificate.isCA = true)
    (hplen : s.certificate.pathLenConstraint = some 0)
    (hvalid : validateRequest req = none) :
    (req.template.isCA = false →
      (signRequest (some s) req k srl now).isOk = true)
    ∧ (req.template.isCA = true →
      signRequest (some s) req k srl now = .error .pathLengthExceeded) := by
  constructor
  · intro hleaf
    simp [signRequest, hvalid, hca, hplen, hleaf, Except.isOk, Except.toBool]
  · intro hcareq
    simp [signRequest, hvalid, hca, hplen, hcareq]

/-- Witness for C1 at concrete inputs: the `pathLenConstraint = 0` signer
rejects a concrete CA request with `PathLengthExceeded` and accepts a
concrete leaf request. -/
theorem signRequest_pathLenZero_witness :
    signRequest (some witSigner) witCAReq 3 4 5 = .error .pathLengthExceeded
    ∧ (signRequest (some witSigner) witLeafReq 3 4 5).isOk = true := by
  constructor
  · exact (signRequest_pathLenZero witSigner witCAReq 3 4 5 rfl rfl rfl).2 rfl
  · exact (signRequest_pathLenZero witSigner witLeafReq 3 4 5 rfl rfl rfl).1 rfl

/-- C2: self-signing succeeds only for CA requests; a non-CA request with
no signer always fails with `InvalidRequest`; and the visible CA-creation
command builds its request with `template.IsCA` forced to true (and invokes
the sign operation with a nil signer), so the precondition holds there. -/
theorem selfSign_requires_CA (req : Request) (k srl now : Nat) :
    ((signRequest none req k srl now).isOk = true → req.template.isCA = true)
    ∧ (req.template.isCA = false →
        signRequest none req k srl now = .error .invalidRequest)
    ∧ (∀ flags cafile, (caRequest flags cafile).template.isCA = true) := by
  refine ⟨?_, ?_, fun _ _ => rfl⟩
  · intro hok
    by_contra hnot
    have hfalse : req.template.isCA = false := by
      cases h : req.template.isCA
      · rfl
      · exact absurd h hnot
    cases hv : validateRequest req with
    | some e => simp [signRequest, hv, Except.isOk, Except.toBool] at hok
    | none => simp [signRequest, hv, hfalse, Except.isOk, Except.toBool] at hok
  · intro hfalse
    cases hv : validateRequest req with
    | some e =>
      have : e = .invalidRequest := validateRequest_eq_invalid req e hv
      subst this
      simp [signRequest, hv]
    | none => simp [signRequest, hv, hfalse]

/-- Witness for C2 at a concrete input: self-signing a concrete leaf
request fails with `InvalidRequest`. -/
theorem selfSign_requires_CA_witness :
    signRequest none witLeafReq 3 4 5 = .error .invalidRequest :=
  (selfSign_requires_CA witLeafReq 3 4 5).2.1 rfl

/-- C3: every bundle produced by the Signing Engine satisfies the chain
invariant: with a signer the chain is the signer's chain extended by the
signer's certificate and the new certificate's issuer is the subject of the
chain's last element; self-signed bundles have an empty chain and
issuer equal to subject. -/
theorem signRequest_chain_invariant (signer : Option Bundle) (req : Request)
    (k srl now : Nat) (b : Bundle)
    (h : signRequest signer req k srl now = .ok b) :
    (signer = none →
      b.chain = [] ∧ b.certificate.issuer = b.certificate.subject)
    ∧ (∀ s, signer = some s →
      b.chain = s.chain ++ [s.certificate]
      ∧ b.chain.getLast? = some s.certificate
      ∧ b.certificate.issuer = s.certificate.subject) := by
  cases hv : validateRequest req with
  | some e => simp [signRequest, hv] at h
  | none =>
    cases signer with
    | none =>
      refine ⟨fun _ => ?_, fun s hs => by cases hs⟩
      by_cases hca : req.template.isCA = true
      · simp [signRequest, hv, hca] at h
        subst h
        exact ⟨rfl, rfl⟩
      · simp [signRequest, hv, hca] at h
    | some s =>
      refine ⟨fun hn => (nomatch hn), fun s2 hs => ?_⟩
      injection hs with hss
      subst hss
      by_cases hca : s.certificate.isCA = true
      · by_cases hpl : s.certificate.pathLenConstraint = some 0 ∧ req.template.isCA
        · simp [signRequest, hv, hca, hpl] at h
        · simp [signRequest, hv, hca, hpl] at h
          subst h
          exact ⟨rfl, List.getLast?_concat s.chain, rfl⟩
      · simp [signRequest, hv, hca] at h

/-- Bundle produced by signing the concrete leaf request with the concrete
signer, used by the C3 witness. -/
def witLeafBundle : Bundle :=
  { certificate := buildCertificate witLeafReq "Intermediate" 3 4 5
    privateKey := 3
    chain := witSigner.chain ++ [witSigner.certificate] }

/-- Witness for C3 at a concrete input: the bundle obtained by signing the
concrete leaf request with the concrete signer satisfies the chain
invariant. -/
theorem signRequest_chain_invariant_witness :
    witLeafBundle.chain = witSigner.chain ++ [witSigner.certificate]
    ∧ witLeafBundle.chain.getLast? = some witSigner.certificate
    ∧ witLeafBundle.certificate.issuer = witSigner.certificate.subject :=
  (signRequest_chain_invariant (some witSigner) witLeafReq 3 4 5 witLeafBundle
    rfl).2 witSigner rfl

/-- C4: on any request that fails validation, issuance terminates with
`ValidationFailed` and leaves the store (in particular the entry for the
target name) exactly as it was. -/
theorem issue_validationFailure_noop (st : StoreState)
    (signer : Option Bundle) (req : Request) (ow : Bool) (k srl now : Nat)
    (h : validateRequest req ≠ none) :
    issue st signer req ow k srl now = (.validationFailed, st) := by
  cases hv : validateRequest req with
  | none => exact absurd hv h
  | some e =>
    have he : e = .invalidRequest := validateRequest_eq_invalid req e hv
    subst he
    simp [issue, zitiSign, hv, outcomeOfError]

/-- Concrete request with the unsupported key size 1023, used by the C4
witness. -/
def wit1023Req : Request :=
  { name := "server"
    template := { commonName := "server", organization := "org", isCA := false }
    isClientCertificate := false
    privateKeySize := 1023
    validityDays := 30
    maxPathLen := -1 }

/-- Witness for C4 at a concrete input: a request with
`privateKeySize = 1023` fails with `ValidationFailed` and the (empty)
store is unchanged. -/
theorem issue_validationFailure_noop_witness :
    issue [] none wit1023Req false 3 4 5 = (.validationFailed, []) :=
  issue_validationFailure_noop [] none wit1023Req false 3 4 5 (by decide)

/-- C5: a successful `Save` followed by `Load` of the same name reproduces
the saved bundle (hence the same serial, subject, issuer and validity
window), and its private key matches the certificate's public key. -/
theorem store_roundtrip (st st2 : StoreState) (b : Bundle) (name : String)
    (ow : Bool)
    (hkey : publicKeyOf b.privateKey = b.certificate.publicKey)
    (hsave : storeSave st b name ow = .ok st2) :
    storeLoad st2 name = .ok b
    ∧ publicKeyOf b.privateKey = b.certificate.publicKey := by
  refine ⟨?_, hkey⟩
  unfold storeSave at hsave
  split at hsave
  · cases hsave
  · injection hsave with hst
    subst hst
    simp [storeLoad, storeFind, hkey]

/-- Witness for C5 at a concrete input: saving the concrete signer bundle
into the empty store and loading it back returns the same bundle. -/
theorem store_roundtrip_witness :
    storeLoad [("int", { keyData := 21
                         certData := witSigner.certificate
                         chainData := witSigner.chain })] "int" = .ok witSigner
    ∧ publicKeyOf witSigner.privateKey = witSigner.certificate.publicKey :=
  store_roundtrip [] _ witSigner "int" false rfl rfl

/-- C6: if issuance for a name (without overwrite) ends `Created`, a second
issuance for the same name (without overwrite) ends `AlreadyExists` and
leaves the stored artifacts of the first invocation untouched. -/
theorem issue_twice_alreadyExists (st st1 : StoreState)
    (signer : Option Bundle) (req : Request) (k1 s1 t1 k2 s2 t2 : Nat)
    (h : issue st signer req false k1 s1 t1 = (.created, st1)) :
    issue st1 signer req false k2 s2 t2 = (.alreadyExists, st1) := by
  have hz : zitiSign st signer req false k1 s1 t1 = .ok st1 := by
    cases hzz : zitiSign st signer req false k1 s1 t1 with
    | error e =>
      simp [issue, hzz] at h
      cases e <;> simp [outcomeOfError] at h
    | ok st2 =>
      simp [issue, hzz] at h
      rw [h]
  cases hv : validateRequest req with
  | some e => simp [zitiSign, hv] at hz
  | none =>
    simp only [zitiSign, hv] at hz
    split at hz
    · cases hz
    · rename_i hex
      cases hs : signRequest signer req k1 s1 t1 with
      | error e => simp [hs] at hz
      | ok b =>
        simp only [hs] at hz
        unfold storeSave at hz
        split at hz
        · cases hz
        · injection hz with hst
          subst hst
          simp [issue, zitiSign, hv, storeExists, storeFind, outcomeOfError]

/-- Store contents after the concrete first issuance in the C6 witness. -/
def witStore1 : StoreState :=
  [("ca2", { keyData := 3
             certData := buildCertificate witCAReq "Sub CA" 3 4 5
             chainData := [] })]

/-- Witness for C6 at concrete inputs: issuing the concrete CA request into
the empty store yields `Created`; issuing it again yields `AlreadyExists`
with the stored files unchanged. -/
theorem issue_twice_alreadyExists_witness :
    issue witStore1 none witCAReq false 6 7 8 = (.alreadyExists, witStore1) :=
  issue_twice_alreadyExists [] witStore1 none witCAReq 3 4 5 6 7 8 rfl

/-- C7: the create-CA command registers `ca-name` with the
organization-branded default common name, `expire-limit` with default 3650,
`max-path-len` with default -1, and `private-key-size` with default 4096. -/
theorem createCA_flag_defaults :
    flagDefault addPKICreateCAFlags "ca-name"
      = some (.str "NetFoundry Inc. Certificate Authority")
    ∧ flagDefault addPKICreateCAFlags "expire-limit" = some (.int 3650)
    ∧ flagDefault addPKICreateCAFlags "max-path-len" = some (.int (-1))
    ∧ flagDefault addPKICreateCAFlags "private-key-size" = some (.int 4096) := by
  refine ⟨?_, ?_, ?_, ?_⟩ <;> rfl

/-- C10: `valOrDefault` returns the pointed-to value on a non-nil pointer
and the type's zero value on a nil pointer; it is a total function, so no
nil dereference is possible. -/
theorem valOrDefault_behaviour {V : Type} [Inhabited V] (v : V) :
    valOrDefault (some v) = v
    ∧ valOrDefault (none : Option V) = (default : V) :=
  ⟨rfl, rfl⟩

/-- C8: the create-CA `Run` exits with status zero exactly when resolving
the PKI root succeeds, resolving the CA file succeeds, and the issuance of
the assembled CA request ends `Created`; any failure of these steps
(including `ValidationFailed`, `IOFailed` or `AlreadyExists` outcomes of
the sign step) yields a non-nil error and hence a non-zero exit status. -/
theorem runCreateCA_exit_iff (env : RunEnv) (k srl now : Nat) :
    exitStatus (runCreateCA env k srl now) = 0
    ↔ ∃ root cafile, env.obtainPKIRoot = .ok root
        ∧ env.obtainCAFile = .ok cafile
        ∧ (issue env.store none (caRequest env.flags cafile) false
            k srl now).1 = .created := by
  cases hr : env.obtainPKIRoot with
  | error e => simp [runCreateCA, hr, exitStatus]
  | ok root =>
    cases hf : env.obtainCAFile with
    | error e => simp [runCreateCA, hr, hf, exitStatus]
    | ok cafile =>
      cases hz : zitiSign env.store none (caRequest env.flags cafile) false
          k srl now with
      | error e =>
        cases e <;>
          simp [runCreateCA, hr, hf, hz, exitStatus, issue, outcomeOfError]
      | ok st2 =>
        simp [runCreateCA, hr, hf, hz, exitStatus, issue]

/-- Environment used by the C8 witness: resolutions succeed and the store
is empty. -/
def witEnv : RunEnv :=
  { flags := { pkiRoot := "/pki", caFile := "ca", caName := "Example CA"
               caExpire := 3650, caMaxpath := -1, caPrivateKeySize := 4096 }
    obtainPKIRoot := .ok "/pki"
    obtainCAFile := .ok "ca"
    store := [] }

/-- Witness for C8 at a concrete input: with successful resolutions and an
empty store, the create-CA command exits with status zero. -/
theorem runCreateCA_exit_iff_witness :
    exitStatus (runCreateCA witEnv 3 4 5) = 0 :=
  (runCreateCA_exit_iff witEnv 3 4 5).mpr ⟨"/pki", "ca", rfl, rfl, rfl⟩

/-- Totality analysis of the circuit-path inner loop: the loop hits an
out-of-range links index exactly when the links list is shorter than the
remaining node count. -/
theorem circuitPathAux_none_iff (links rest : List EntityRef) :
    ∀ (idx : Nat) (acc : String), idx ≤ links.length →
      (circuitPathAux acc rest links idx = none
        ↔ links.length < idx + rest.length) := by
  induction rest with
  | nil =>
    intro idx acc h
    simp [circuitPathAux]
    omega
  | cons node rest2 ih =>
    intro idx acc h
    by_cases hidx : idx < links.length
    · have hsome : links[idx]? = some links[idx] := List.getElem?_eq_getElem hidx
      simp only [circuitPathAux, hsome]
      rw [ih (idx + 1) _ (by omega)]
      simp
      omega
    · have hge : links.length ≤ idx := Nat.le_of_not_lt hidx
      have hnone : links[idx]? = none := List.getElem?_eq_none hge
      simp only [circuitPathAux, hnone, List.length_cons]
      simp
      omega

/-- Value of the circuit-path inner loop when every links index is in
bounds: it appends the link/router segments for the remaining nodes, with
links consumed from the running index onward. -/
theorem circuitPathAux_eq_some (links rest : List EntityRef) :
    ∀ (idx : Nat) (acc : String), idx + rest.length ≤ links.length →
      circuitPathAux acc rest links idx
        = some (acc ++ pathSegments rest (links.drop idx)) := by
  induction rest with
  | nil =>
    intro idx acc h
    simp [circuitPathAux, pathSegments]
  | cons node rest2 ih =>
    intro idx acc h
    have hidx : idx < links.length := by
      simp only [List.length_cons] at h
      omega
    have hsome : links[idx]? = some links[idx] := List.getElem?_eq_getElem hidx
    have hdrop : links.drop idx = links[idx] :: links.drop (idx + 1) :=
      List.drop_eq_getElem_cons hidx
    simp only [circuitPathAux, hsome]
    rw [ih (idx + 1) _ (by simp only [List.length_cons] at h; omega), hdrop]
    simp [pathSegments, String.append_assoc]

/-- C9: the Path cell of `outputCircuits` is empty when the decoded node
list is empty; when there are `n >= 1` nodes it is total precisely when the
decoded links list has at least `n - 1` entries (otherwise the links
indexing goes out of bounds), and in bounds it renders `r/` plus the first
node name followed by ` -> l/` link-id ` -> r/` node-name segments. -/
theorem outputCircuits_path (nodes links : List EntityRef) :
    (nodes = [] → circuitPath nodes links = some "")
    ∧ (nodes.length - 1 ≤ links.length →
        circuitPath nodes links = some (circuitPathSpec nodes links))
    ∧ (links.length < nodes.length - 1 → circuitPath nodes links = none) := by
  cases nodes with
  | nil =>
    refine ⟨fun _ => rfl, fun _ => rfl, fun h => ?_⟩
    simp at h
  | cons n0 rest =>
    refine ⟨fun h => (nomatch h), fun h => ?_, fun h => ?_⟩
    · have h2 : 0 + rest.length ≤ links.length := by
        simp only [List.length_cons] at h
        omega
      have hv := circuitPathAux_eq_some links rest 0 ("r/" ++ n0.name) h2
      simp only [List.drop_zero] at hv
      simp [circuitPath, circuitPathSpec, hv]
    · have h2 : links.length < 0 + rest.length := by
        simp only [List.length_cons] at h
        omega
      have hn := (circuitPathAux_none_iff links rest 0 ("r/" ++ n0.name)
        (Nat.zero_le _)).mpr h2
      simp [circuitPath, hn]

/-- Witness for C9 at a concrete input: two nodes and one link render the
claimed path string. -/
theorem outputCircuits_path_witness :
    circuitPath [{ id := "a", name := "r1" }, { id := "b", name := "r2" }]
        [{ id := "l1", name := "x" }]
      = some (circuitPathSpec
          [{ id := "a", name := "r1" }, { id := "b", name := "r2" }]
          [{ id := "l1", name := "x" }]) :=
  (outputCircuits_path
    [{ id := "a", name := "r1" }, { id := "b", name := "r2" }]
    [{ id := "l1", name := "x" }]).2.1 (by decide)
